import Mathlib

/-!
# Verification of `mini-executor` (src/lib.rs)

Shallow embedding of the single-future executor: `MiniExecutor` holds a
`Mutex<Option<Pin<Box<dyn Future<Output = ()>>>>>`; `run` spin-polls the
future under the lock until it reports ready; a hand-rolled `RawWakerVTable`
(`clone_waker`, `wake_waker`, `wake_by_ref_waker`, `drop_waker`) manages the
`Arc<MiniExecutor>` strong count behind an opaque pointer.

Modelling choices:
* A future is a state type `σ` with a pure poll step `σ → PollRes × σ`
  (the source polls the pinned future in place, mutating it).
* The `Arc` strong count is an explicit `Nat` in a `World`; every live raw
  waker handle owns exactly one unit of it, as in the source.
* `run`'s loop is given fuel; `none` means the loop has not returned within
  the given number of iterations (so `∀ fuel, … = none` renders "run never
  returns").
* Lock poisoning is a `Bool` on the mutex: `lock().unwrap()` on a poisoned
  mutex panics, rendered as the `RunOutcome.panicked` outcome.
* The non-reentrancy of `std::sync::Mutex` (an acquisition on a thread that
  already holds the lock does not return) is modelled by `lockAcquire`.
-/

namespace MiniExec

/-- Outcome of one poll of the future: `Poll::Ready(())` or `Poll::Pending`
(`std::task::Poll` with unit output, as in `dyn Future<Output = ()>`). -/
inductive PollRes where
  | ready
  | pending
deriving DecidableEq, Repr

/-- A future with unit output: a state type `σ` together with its poll step.
One poll advances the state and reports ready or pending; the source's
`fut.as_mut().poll(&mut context)` mutates the future in place through the
pin, which the state-passing renders. -/
structure FutureM (σ : Type) where
  poll : σ → PollRes × σ

/-- The executor's control block, transcribing
`struct MiniExecutor (future: Mutex<Option<Pin<Box<dyn Future>>>>)`:
the mutex's poison flag together with the optional future slot it guards. -/
structure MiniExecutor (σ : Type) where
  poisoned : Bool
  future : Option σ
deriving DecidableEq, Repr

/-- The shared state of one runner identity: the strong count of the
`Arc<MiniExecutor>` together with the control block it points to. Every live
raw waker handle owns exactly one unit of `strong`. -/
structure World (σ : Type) where
  strong : Nat
  exec : MiniExecutor σ
deriving DecidableEq, Repr

/-- Transcribes `MiniExecutor::new`: `Arc::new(Self (future: Mutex::new(Some(future))))` —
a fresh control block with strong count 1, an unpoisoned mutex, and the slot
populated with the supplied future. -/
def MiniExecutor.new (s : σ) : World σ :=
  ⟨1, ⟨false, some s⟩⟩

/-- Transcribes `self.future.lock().unwrap()`: locking a poisoned mutex yields
`Err(PoisonError)`, and `unwrap` on it panics — rendered as `none`. On an
unpoisoned mutex the guard exposes the slot's contents. -/
def lockUnwrap (poisoned : Bool) (slot : Option σ) : Option (Option σ) :=
  if poisoned then none else some slot

/-- How one call of `run`'s loop ends: the `unwrap` on the lock panicked, or
the loop broke, leaving `slot` in the mutex after performing `polls` poll
calls on the future. -/
inductive RunOutcome (σ : Type) where
  | panicked
  | returned (slot : Option σ) (polls : Nat)
deriving DecidableEq, Repr

/-- The `loop` inside `MiniExecutor::run`, fuel-indexed (`none` = the loop has
not returned within `fuel` iterations). Each iteration transcribes the source:
`let mut future = self.future.lock().unwrap()`; if the slot holds a future,
poll it once — on `Ready` break, on `Pending` continue — and if the slot is
empty, break at once (0 polls in that iteration). The slot is never written:
the source only ever polls through `as_mut()`. -/
def runLoop (f : FutureM σ) : Nat → MiniExecutor σ → Option (RunOutcome σ)
  | 0, _ => none
  | fuel + 1, ex =>
    match lockUnwrap ex.poisoned ex.future with
    | none => some RunOutcome.panicked
    | some none => some (RunOutcome.returned none 0)
    | some (some s) =>
      match f.poll s with
      | (PollRes.ready, s2) => some (RunOutcome.returned (some s2) 1)
      | (PollRes.pending, s2) =>
        match runLoop f fuel ⟨ex.poisoned, some s2⟩ with
        | none => none
        | some RunOutcome.panicked => some RunOutcome.panicked
        | some (RunOutcome.returned slot2 n) =>
          some (RunOutcome.returned slot2 (n + 1))

/-- Transcribes `MiniExecutor::into_waker(self.clone())` as used by `run`:
the waker is built from a fresh `Arc` clone whose ownership `Arc::into_raw`
transfers into the raw handle — net effect, one extra strong reference owned
by the returned opaque pointer (the single runner identity, rendered as
pointer value 0). -/
def into_waker (w : World σ) : Nat × World σ :=
  (0, ⟨w.strong + 1, w.exec⟩)

/-- Transcribes vtable entry `clone_waker`: `Arc::from_raw` the pointer,
`clone` it (strong count +1), `Arc::into_raw` the clone into a new raw waker
carrying the same pointer, and `mem::forget` the original so the input handle
stays live. -/
def clone_waker (ptr : Nat) (w : World σ) : Nat × World σ :=
  (ptr, ⟨w.strong + 1, w.exec⟩)

/-- Transcribes vtable entry `drop_waker`:
`drop(Arc::from_raw(ptr))` — the handle's one strong reference is released. -/
def drop_waker (_ptr : Nat) (w : World σ) : World σ :=
  ⟨w.strong - 1, w.exec⟩

/-- Transcribes vtable entry `wake_by_ref_waker`: the body is empty
(`// Do nothing`), so the state is returned unchanged. -/
def wake_by_ref_waker (_ptr : Nat) (w : World σ) : World σ :=
  w

/-- How a call of `MiniExecutor::run` ends: panic propagated out, or normal
return with the updated shared state after `polls` poll calls. -/
inductive RunResult (σ : Type) where
  | panicked
  | returned (w : World σ) (polls : Nat)
deriving DecidableEq, Repr

/-- Transcribes `MiniExecutor::run`: build the local waker via
`into_waker(self.clone())` (one extra strong reference, taken before the
loop), drive `runLoop`, and on normal return drop the local waker
(`drop_waker` releases its reference as `run`'s scope ends). The loop never
reads the strong count, so the waker's creation and drop are composed at the
return site. -/
def MiniExecutor.run (f : FutureM σ) (fuel : Nat) (w : World σ) : Option (RunResult σ) :=
  match runLoop f fuel w.exec with
  | none => none
  | some RunOutcome.panicked => some RunResult.panicked
  | some (RunOutcome.returned slot2 n) =>
    some (RunResult.returned
      (drop_waker (into_waker w).1
        ⟨(into_waker w).2.strong, ⟨w.exec.poisoned, slot2⟩⟩) n)

/-- Transcribes vtable entry `wake_waker`: `Arc::from_raw` takes ownership of
the handle's one strong reference (no count change), `executor.run()` drives
the loop, and the `Arc` is dropped when the call returns (strong count −1). -/
def wake_waker (_ptr : Nat) (f : FutureM σ) (fuel : Nat) (w : World σ) : Option (RunResult σ) :=
  match MiniExecutor.run f fuel w with
  | none => none
  | some RunResult.panicked => some RunResult.panicked
  | some (RunResult.returned w2 n) =>
    some (RunResult.returned ⟨w2.strong - 1, w2.exec⟩ n)

/-- A future (in state `s`) that reports pending exactly `n` times before
reporting ready, in the sense of the spec's poll-count property. -/
def pendingExactly (f : FutureM σ) : σ → Nat → Bool
  | s, 0 =>
    match f.poll s with
    | (PollRes.ready, _) => true
    | (PollRes.pending, _) => false
  | s, n + 1 =>
    match f.poll s with
    | (PollRes.ready, _) => false
    | (PollRes.pending, s2) => pendingExactly f s2 n

/-- A future that is ready on every poll (completes on the first poll). -/
def readyFut : FutureM Unit :=
  ⟨fun s => (PollRes.ready, s)⟩

/-- A future that counts down: with state `n + 1` it reports pending and
steps to `n`; with state `0` it reports ready. In state `n` it reports
pending exactly `n` times before reporting ready. -/
def countdownFut : FutureM Nat :=
  ⟨fun n =>
    match n with
    | 0 => (PollRes.ready, 0)
    | m + 1 => (PollRes.pending, m)⟩

/-- A future that reports pending on every poll (never completes). -/
def neverFut : FutureM Unit :=
  ⟨fun s => (PollRes.pending, s)⟩

/-- Transcribes the non-reentrancy of `std::sync::Mutex`: acquiring the lock
on a thread that already holds it does not return (the std documentation
leaves panic vs deadlock unspecified, but guarantees the call does not
return). `none` models the non-returning acquisition. -/
def lockAcquire (heldBySelf : Bool) : Option Unit :=
  if heldBySelf then none else some ()

/-- The control path of `run` when the polled future synchronously invokes
`wake` on the thread executing `run`: the loop body acquires the slot lock
and the guard stays alive across `fut.as_mut().poll(..)`; inside that poll
the future calls `wake`, `wake_waker` calls `executor.run()`, and the nested
`run`'s loop begins with `self.future.lock()` — an acquisition of the same
mutex on the same thread, which still holds it. -/
def runNestedWakeSameThread : Option Unit :=
  match lockAcquire false with
  | none => none
  | some () =>
    match lockAcquire true with
    | none => none
    | some () => some ()

/-- `run`'s loop with the guard lifetime explicit: each iteration acquires
the lock (`lockAcquire`), polls while the guard is alive — recording, for
each poll, whether the lock was held at that moment — and releases the guard
at the end of the iteration (the recursive call re-acquires from the
unlocked state, as the `MutexGuard` is dropped before `continue` re-enters
the loop body). -/
def runLoopHeld (f : FutureM σ) : Nat → Bool → Option σ → Option (Option σ × List Bool)
  | 0, _, _ => none
  | fuel + 1, held, slot =>
    match lockAcquire held with
    | none => none
    | some () =>
      match slot with
      | none => some (none, [])
      | some s =>
        match f.poll s with
        | (PollRes.ready, s2) => some (some s2, [true])
        | (PollRes.pending, s2) =>
          match runLoopHeld f fuel false (some s2) with
          | none => none
          | some (slot2, tr) => some (slot2, true :: tr)

/-- A concrete world for counterexamples: strong count 2 (the runner's root
reference plus one live handle), unpoisoned, slot populated. -/
def w2U : World Unit :=
  ⟨2, ⟨false, some ()⟩⟩

end MiniExec

namespace MiniExec

variable {σ : Type}

/-! ## Shared invariants of the loop -/

/-- Helper: a completed `runLoop` that started with a populated slot leaves
the slot populated and performed at least one poll (the empty-slot branch,
which alone returns 0 polls and an empty slot, is never taken). -/
lemma runLoop_returned_inv (f : FutureM σ) :
    ∀ (fuel : Nat) (pois : Bool) (s : σ) (slot2 : Option σ) (n : Nat),
      runLoop f fuel ⟨pois, some s⟩ = some (RunOutcome.returned slot2 n) →
      (∃ s2, slot2 = some s2) ∧ 1 ≤ n := by
  intro fuel
  induction fuel with
  | zero =>
    intro pois s slot2 n h
    simp [runLoop] at h
  | succ k ih =>
    intro pois s slot2 n h
    cases pois with
    | true =>
      simp [runLoop, lockUnwrap] at h
    | false =>
      simp only [runLoop, lockUnwrap, if_neg Bool.false_ne_true] at h
      rcases hpoll : f.poll s with ⟨r, s2⟩
      rw [hpoll] at h
      cases r with
      | ready =>
        simp at h
        exact ⟨⟨s2, h.1.symm⟩, by omega⟩
      | pending =>
        simp at h
        rcases hr : runLoop f k ⟨false, some s2⟩ with _ | out
        · rw [hr] at h
          simp at h
        · rw [hr] at h
          cases out with
          | panicked => simp at h
          | returned slot3 m =>
            simp at h
            rcases ih false s2 slot3 m hr with ⟨⟨s3, hs3⟩, hm⟩
            exact ⟨⟨s3, by rw [← h.1, hs3]⟩, by omega⟩

/-! ## Waker protocol theorems -/

/-- Claim C7: `clone_waker` returns a handle carrying the same opaque pointer
(aliasing the same runner identity), increments the strong count by exactly
one, and leaves the control block — and hence the input handle's validity —
untouched. -/
theorem clone_waker_increments_and_aliases (ptr : Nat) (w : World σ) :
    (clone_waker ptr w).1 = ptr ∧
    (clone_waker ptr w).2.strong = w.strong + 1 ∧
    (clone_waker ptr w).2.exec = w.exec :=
  ⟨rfl, rfl, rfl⟩

/-- Claim C8: `wake_by_ref_waker` is a no-op — it returns the state
unchanged, so it performs no poll and leaves both the strong count and the
computation slot exactly as they were, for every handle. -/
theorem wake_by_ref_noop (ptr : Nat) (w : World σ) :
    wake_by_ref_waker ptr w = w :=
  rfl

/-! ## Poll-count theorems for the loop -/

/-- Claim C2: if the future in state `s` reports pending exactly `N` times
before reporting ready, then `run`'s loop (with enough fuel) returns after
performing exactly `N + 1` polls. The loop never waits on a wake signal
between polls — `runLoop`'s step reads nothing but the slot — so the count
does not depend on wake invocations. -/
theorem run_polls_exactly_n_plus_one (f : FutureM σ) :
    ∀ (N : Nat) (s : σ) (fuel : Nat),
      pendingExactly f s N = true → N + 1 ≤ fuel →
      ∃ s2, runLoop f fuel ⟨false, some s⟩ =
        some (RunOutcome.returned (some s2) (N + 1)) := by
  intro N
  induction N with
  | zero =>
    intro s fuel hp hf
    match fuel, hf with
    | k + 1, _ =>
      rcases hpoll : f.poll s with ⟨r, s2⟩
      cases r with
      | ready =>
        refine ⟨s2, ?_⟩
        simp [runLoop, lockUnwrap, hpoll]
      | pending =>
        simp [pendingExactly, hpoll] at hp
  | succ M ih =>
    intro s fuel hp hf
    match fuel, hf with
    | k + 1, hf =>
      rcases hpoll : f.poll s with ⟨r, s2⟩
      cases r with
      | ready =>
        simp [pendingExactly, hpoll] at hp
      | pending =>
        rw [pendingExactly, hpoll] at hp
        rcases ih s2 k hp (by omega) with ⟨s3, hr⟩
        refine ⟨s3, ?_⟩
        simp [runLoop, lockUnwrap, hpoll, hr]

/-- Witness for C2: the countdown future in state 2 reports pending exactly
twice, and the loop returns after exactly 3 polls. -/
theorem run_polls_exactly_n_plus_one_witness :
    pendingExactly countdownFut 2 2 = true ∧ 2 + 1 ≤ 3 ∧
    ∃ s2, runLoop countdownFut 3 ⟨false, some 2⟩ =
      some (RunOutcome.returned (some s2) (2 + 1)) :=
  ⟨by decide, by decide,
    run_polls_exactly_n_plus_one countdownFut 2 2 3 (by decide) (by decide)⟩

/-- Claim C9: for a future whose every poll reports pending, `run`'s loop
never returns — for every fuel bound it is still looping (`none`), and no
panic or error outcome is ever produced. -/
theorem never_ready_never_returns (f : FutureM σ)
    (h : ∀ s, (f.poll s).1 = PollRes.pending) :
    ∀ (fuel : Nat) (s : σ), runLoop f fuel ⟨false, some s⟩ = none := by
  intro fuel
  induction fuel with
  | zero =>
    intro s
    simp [runLoop]
  | succ k ih =>
    intro s
    rcases hpoll : f.poll s with ⟨r, s2⟩
    have hr : r = PollRes.pending := by
      have := h s
      rw [hpoll] at this
      exact this
    subst hr
    simp [runLoop, lockUnwrap, hpoll, ih s2]

/-- Witness for C9: the always-pending future leaves the loop still running
after 4 iterations of fuel. -/
theorem never_ready_never_returns_witness :
    runLoop neverFut 4 ⟨false, some ()⟩ = none :=
  never_ready_never_returns neverFut (fun _ => rfl) 4 ()

/-- Claim C10: when the slot mutex is poisoned, the next lock acquisition in
`run` panics at once: the loop's first iteration already ends in `panicked`,
with no poll performed, and `MiniExecutor.run` propagates the panic rather
than recovering — there is no other error channel. -/
theorem poisoned_lock_panics (f : FutureM σ) (fuel : Nat) (slot : Option σ)
    (strong : Nat) (hf : 1 ≤ fuel) :
    runLoop f fuel ⟨true, slot⟩ = some RunOutcome.panicked ∧
    MiniExecutor.run f fuel ⟨strong, ⟨true, slot⟩⟩ = some RunResult.panicked := by
  match fuel, hf with
  | k + 1, _ =>
    have hloop : runLoop f (k + 1) (⟨true, slot⟩ : MiniExecutor σ) =
        some RunOutcome.panicked := by
      simp [runLoop, lockUnwrap]
    refine ⟨hloop, ?_⟩
    simp [MiniExecutor.run, into_waker, hloop]

/-- Witness for C10: with fuel 1, a poisoned runner panics on the ready
future without polling. -/
theorem poisoned_lock_panics_witness :
    (1 : Nat) ≤ 1 ∧
    runLoop readyFut 1 ⟨true, some ()⟩ = some RunOutcome.panicked ∧
    MiniExecutor.run readyFut 1 ⟨2, ⟨true, some ()⟩⟩ = some RunResult.panicked :=
  ⟨by decide, poisoned_lock_panics readyFut 1 (some ()) 2 (by decide)⟩

/-! ## Completion does not empty the slot (C1, C5) -/

/-- Counterexample to claim C1: `run` on the immediately-ready future
returns, but the slot still holds the (completed) future — it is `some ()`,
not emptied — and a second call of `run` on the resulting state performs 1
poll, not 0: there is no slot-empty short-circuit. -/
theorem run_after_ready_counterexample :
    MiniExecutor.run readyFut 1 (MiniExecutor.new ()) =
      some (RunResult.returned ⟨1, ⟨false, some ()⟩⟩ 1) ∧
    MiniExecutor.run readyFut 1 ⟨1, ⟨false, some ()⟩⟩ =
      some (RunResult.returned ⟨1, ⟨false, some ()⟩⟩ 1) := by
  constructor <;> rfl

/-- Claim C1 amended: when a poll reports ready, `run`'s loop exits after
that poll (1 poll with sufficient fuel), but the slot is NOT emptied — it
keeps the completed future's state — and consequently a second `run` that
returns from that state has performed at least one further poll rather than
short-circuiting. -/
theorem run_ready_keeps_slot_and_repolls (f : FutureM σ) (s : σ) (fuel : Nat)
    (h : (f.poll s).1 = PollRes.ready) (hf : 1 ≤ fuel) :
    runLoop f fuel ⟨false, some s⟩ =
      some (RunOutcome.returned (some (f.poll s).2) 1) ∧
    ∀ (slot2 : Option σ) (n : Nat),
      runLoop f fuel ⟨false, some (f.poll s).2⟩ =
        some (RunOutcome.returned slot2 n) → 1 ≤ n := by
  constructor
  · match fuel, hf with
    | k + 1, _ =>
      rcases hpoll : f.poll s with ⟨r, s2⟩
      rw [hpoll] at h
      cases r with
      | ready => simp [runLoop, lockUnwrap, hpoll]
      | pending => exact absurd h (by simp)
  · intro slot2 n hrun
    exact (runLoop_returned_inv f fuel false (f.poll s).2 slot2 n hrun).2

/-- Witness for the amended C1: concrete ready future, fuel 1. -/
theorem run_ready_keeps_slot_and_repolls_witness :
    (readyFut.poll ()).1 = PollRes.ready ∧ (1 : Nat) ≤ 1 ∧
    (runLoop readyFut 1 ⟨false, some ()⟩ =
        some (RunOutcome.returned (some (readyFut.poll ()).2) 1) ∧
      ∀ (slot2 : Option Unit) (n : Nat),
        runLoop readyFut 1 ⟨false, some (readyFut.poll ()).2⟩ =
          some (RunOutcome.returned slot2 n) → 1 ≤ n) :=
  ⟨by decide, by decide,
    run_ready_keeps_slot_and_repolls readyFut () 1 (by decide) (by decide)⟩

/-- Claim C5: the slot is never emptied. `new` populates it; a `runLoop`
that returns from a populated slot leaves it populated and has polled at
least once (so the empty-slot branch is never the one taken from a populated
start), and `clone_waker`, `drop_waker` and `wake_by_ref_waker` leave the
slot untouched. -/
theorem slot_never_emptied (f : FutureM σ) (fuel : Nat) (pois : Bool) (s : σ)
    (slot2 : Option σ) (n : Nat) (ptr : Nat) (w : World σ)
    (h : runLoop f fuel ⟨pois, some s⟩ = some (RunOutcome.returned slot2 n)) :
    (MiniExecutor.new s).exec.future = some s ∧
    (∃ s2, slot2 = some s2) ∧ 1 ≤ n ∧
    (clone_waker ptr w).2.exec.future = w.exec.future ∧
    (drop_waker ptr w).exec.future = w.exec.future ∧
    (wake_by_ref_waker ptr w).exec.future = w.exec.future := by
  rcases runLoop_returned_inv f fuel pois s slot2 n h with ⟨hs, hn⟩
  exact ⟨rfl, hs, hn, rfl, rfl, rfl⟩

/-- Witness for C5: the countdown future from state 1, fuel 2: the loop
returns with the slot still `some 0` after 2 polls. -/
theorem slot_never_emptied_witness :
    runLoop countdownFut 2 ⟨false, some 1⟩ =
      some (RunOutcome.returned (some 0) 2) ∧
    ((MiniExecutor.new 1).exec.future = some 1 ∧
      (∃ s2, (some 0 : Option Nat) = some s2) ∧ (1 : Nat) ≤ 2 ∧
      (clone_waker 0 (⟨2, ⟨false, some 5⟩⟩ : World Nat)).2.exec.future =
        (⟨2, ⟨false, some 5⟩⟩ : World Nat).exec.future ∧
      (drop_waker 0 (⟨2, ⟨false, some 5⟩⟩ : World Nat)).exec.future =
        (⟨2, ⟨false, some 5⟩⟩ : World Nat).exec.future ∧
      (wake_by_ref_waker 0 (⟨2, ⟨false, some 5⟩⟩ : World Nat)).exec.future =
        (⟨2, ⟨false, some 5⟩⟩ : World Nat).exec.future) :=
  ⟨by decide,
    slot_never_emptied countdownFut 2 false 1 (some 0) 2 0
      (⟨2, ⟨false, some 5⟩⟩ : World Nat) (by decide)⟩

/-! ## Reference-count theorems (C4, C6) -/

/-- Counterexample to claim C4: start from strong count 2 (root reference
plus the live original handle), clone the handle, then drop both the
original and the clone — the count is 1, not the pre-clone value 2: dropping
the original releases its own reference too. -/
theorem clone_drop_both_counterexample :
    (drop_waker (clone_waker 0 w2U).1
        (drop_waker 0 (clone_waker 0 w2U).2)).strong = 1 ∧
    w2U.strong = 2 := by
  constructor <;> rfl

/-- Claim C4 amended: clone and drop are exact count-inverses — dropping
just the clone returns the state to exactly its pre-clone value — while
dropping both the original and the clone leaves the strong count one below
its pre-clone value (the original's own reference is released as well). -/
theorem clone_drop_inverse (ptr : Nat) (w : World σ) (hs : 1 ≤ w.strong) :
    drop_waker (clone_waker ptr w).1 (clone_waker ptr w).2 = w ∧
    (drop_waker (clone_waker ptr w).1
        (drop_waker ptr (clone_waker ptr w).2)).strong + 1 = w.strong := by
  cases w with
  | mk strong exec =>
    constructor
    · simp [clone_waker, drop_waker]
    · simp only [clone_waker, drop_waker] at *
      simp at hs ⊢
      omega

/-- Witness for the amended C4: the concrete world with strong count 2. -/
theorem clone_drop_inverse_witness :
    1 ≤ w2U.strong ∧
    (drop_waker (clone_waker 0 w2U).1 (clone_waker 0 w2U).2 = w2U ∧
      (drop_waker (clone_waker 0 w2U).1
          (drop_waker 0 (clone_waker 0 w2U).2)).strong + 1 = w2U.strong) :=
  ⟨by decide, clone_drop_inverse 0 w2U (by decide)⟩

/-- Claim C6: `wake_waker` takes ownership of the handle's one strong
reference, drives the loop via `MiniExecutor.run`, and releases the
reference when the call returns: its net effect on the strong count, seen by
the caller, is exactly one decrement, and the poison state is untouched. -/
theorem wake_consumes_one_ref (ptr : Nat) (f : FutureM σ) (fuel : Nat)
    (w : World σ) (w2 : World σ) (n : Nat) (hs : 1 ≤ w.strong)
    (h : wake_waker ptr f fuel w = some (RunResult.returned w2 n)) :
    w2.strong + 1 = w.strong ∧ w2.exec.poisoned = w.exec.poisoned := by
  rcases hr : runLoop f fuel w.exec with _ | out
  · simp [wake_waker, MiniExecutor.run, hr] at h
  · cases out with
    | panicked =>
      simp [wake_waker, MiniExecutor.run, hr] at h
    | returned slot2 m =>
      simp [wake_waker, MiniExecutor.run, hr, into_waker, drop_waker] at h
      rcases h with ⟨hw2, _⟩
      rw [← hw2]
      refine ⟨by simp; omega, by simp⟩

/-- Witness for C6: waking a handle on the immediately-ready runner with
strong count 2 returns with strong count 1. -/
theorem wake_consumes_one_ref_witness :
    1 ≤ w2U.strong ∧
    wake_waker 0 readyFut 1 w2U =
      some (RunResult.returned ⟨1, ⟨false, some ()⟩⟩ 1) ∧
    ((⟨1, ⟨false, some ()⟩⟩ : World Unit).strong + 1 = w2U.strong ∧
      (⟨1, ⟨false, some ()⟩⟩ : World Unit).exec.poisoned = w2U.exec.poisoned) :=
  ⟨by decide, by decide,
    wake_consumes_one_ref 0 readyFut 1 w2U ⟨1, ⟨false, some ()⟩⟩ 1
      (by decide) (by decide)⟩

/-! ## Lock re-entrancy (C3) -/

/-- Counterexample to claim C3: the transcribed control path of a `wake`
invoked synchronously from within a poll on the thread executing `run`
evaluates to `none` — the nested acquisition of the slot mutex happens while
the same thread still holds it, and `std::sync::Mutex` being non-reentrant,
that acquisition never returns: the nested re-entry deadlocks (or panics)
instead of being serialized. -/
theorem nested_wake_same_thread_deadlocks :
    runNestedWakeSameThread = none ∧ lockAcquire true = none := by
  constructor <;> rfl

/-- Claim C3 amended: every poll performed by `run`'s loop executes while
the slot lock is held (so concurrent poll attempts from other threads
serialize on the lock — at most one poll at any instant), but a `wake`
invoked synchronously from within a poll on the same thread that is
executing `run` re-acquires the held, non-reentrant lock and does not
return: same-thread nested re-entry deadlocks rather than being legal. -/
theorem poll_lock_held_nested_deadlock (f : FutureM σ) (fuel : Nat)
    (slot slot2 : Option σ) (tr : List Bool) (b : Bool)
    (hrun : runLoopHeld f fuel false slot = some (slot2, tr)) (hb : b ∈ tr) :
    b = true ∧ runNestedWakeSameThread = none := by
  refine ⟨?_, rfl⟩
  induction fuel generalizing slot slot2 tr with
  | zero =>
    simp [runLoopHeld] at hrun
  | succ k ih =>
    rcases slot with _ | s
    · simp [runLoopHeld, lockAcquire] at hrun
      obtain ⟨h1, h2⟩ := hrun
      subst h2
      simp at hb
    · rcases hpoll : f.poll s with ⟨r, s2⟩
      cases r with
      | ready =>
        simp [runLoopHeld, lockAcquire, hpoll] at hrun
        obtain ⟨h1, h2⟩ := hrun
        subst h2
        simpa using hb
      | pending =>
        rcases hrec : runLoopHeld f k false (some s2) with _ | pr
        · simp [runLoopHeld, lockAcquire, hpoll, hrec] at hrun
        · rcases pr with ⟨slot3, tr3⟩
          simp [runLoopHeld, lockAcquire, hpoll, hrec] at hrun
          obtain ⟨h1, h2⟩ := hrun
          subst h2
          rcases List.mem_cons.mp hb with hbt | hbt
          · exact hbt
          · exact ih (some s2) slot3 tr3 hrec hbt

/-- Witness for the amended C3: one iteration on the ready future records
its single poll as lock-held. -/
theorem poll_lock_held_nested_deadlock_witness :
    runLoopHeld readyFut 1 false (some ()) = some (some (), [true]) ∧
    true ∈ [true] ∧
    (true = true ∧ runNestedWakeSameThread = none) :=
  ⟨by decide, by decide,
    poll_lock_held_nested_deadlock readyFut 1 (some ()) (some ()) [true] true
      (by decide) (by decide)⟩

end MiniExec
